import Mathlib

/-!
Verification development for ps2emu (ps2emu-record.c / ps2emu-replay.c).

The C sources are embedded shallowly: each C function that the properties
mention is translated into an executable Lean definition of the same name,
working over `List Char` in place of C strings.  Code of the repository
that is not in the two given source files (ps2emu-event.c, ps2emu-line.c,
ps2emu-section.c, the headers) is modelled from the specification and
marked as such in its doc comment.
-/

namespace Ps2emu

/-- Event types, from the PS2_EVENT_TYPE_* enum used by ps2emu-record.c.
The enum itself lives in ps2emu-event.h (not among the given sources);
the five members and their meaning are fixed by their uses in
parse_normal_event.  `interrupt` is listed first and is taken as the
all-zero default produced by g_new0. -/
inductive PS2EventType where
  | interrupt
  | command
  | parameter
  | ret
  | kbdData
  deriving DecidableEq, Repr

/-- The PS2Event struct (declared in ps2emu-event.h, not among the given
sources; field types are pinned by the sscanf conversions applied to them
in ps2emu-record.c: `time` via %ld is a 64-bit signed integer, `data` via
%hhx an unsigned byte, `irq` via %hd a 16-bit signed integer; `port` is
assigned from strtol and per the spec is an integer port index). -/
structure PS2Event where
  type : PS2EventType
  time : Int
  data : Nat
  port : Int
  irq : Int
  has_data : Bool
  deriving DecidableEq, Repr

/-- The zero-initialized event, as produced by g_new0 before the parse
functions fill it in. -/
def zeroEvent : PS2Event :=
  { type := .interrupt, time := 0, data := 0, port := 0, irq := 0,
    has_data := false }

/- ### Character-level helpers for the sscanf/strtol embeddings -/

/-- C `isspace` on the default locale. -/
def isCSpace (c : Char) : Bool :=
  c = ' ' || c = '\t' || c = '\n' || c = '\x0b' || c = '\x0c' || c = '\r'

/-- Skip a (possibly empty) run of whitespace: the effect of a blank in an
sscanf format string, and of the leading-space skip of the numeric
conversions. -/
def skipSpaces : List Char → List Char
  | [] => []
  | c :: cs => if isCSpace c then skipSpaces cs else c :: cs

/-- Decimal digit value. -/
def digitVal? (c : Char) : Option Nat :=
  if '0' ≤ c ∧ c ≤ '9' then some (c.toNat - '0'.toNat) else none

/-- Hexadecimal digit value. -/
def hexVal? (c : Char) : Option Nat :=
  if '0' ≤ c ∧ c ≤ '9' then some (c.toNat - '0'.toNat)
  else if 'a' ≤ c ∧ c ≤ 'f' then some (c.toNat - 'a'.toNat + 10)
  else if 'A' ≤ c ∧ c ≤ 'F' then some (c.toNat - 'A'.toNat + 10)
  else none

/-- Accumulate the leading run of decimal digits. -/
def takeDecDigits (acc : Nat) : List Char → Nat × Nat × List Char
  | [] => (acc, 0, [])
  | c :: cs =>
    match digitVal? c with
    | some d =>
      let r := takeDecDigits (acc * 10 + d) cs
      (r.1, r.2.1 + 1, r.2.2)
    | none => (acc, 0, c :: cs)

/-- Accumulate the leading run of hexadecimal digits. -/
def takeHexDigits (acc : Nat) : List Char → Nat × Nat × List Char
  | [] => (acc, 0, [])
  | c :: cs =>
    match hexVal? c with
    | some d =>
      let r := takeHexDigits (acc * 16 + d) cs
      (r.1, r.2.1 + 1, r.2.2)
    | none => (acc, 0, c :: cs)

/-- Match a literal character of an sscanf format (no whitespace skip). -/
def matchLit (c : Char) : List Char → Option (List Char)
  | [] => none
  | x :: xs => if x = c then some xs else none

/-- Match a run of literal characters of an sscanf format. -/
def matchLits : List Char → List Char → Option (List Char)
  | [], s => some s
  | c :: cs, s =>
    match matchLit c s with
    | some s1 => matchLits cs s1
    | none => none

/-- Optional sign, as consumed by the numeric sscanf conversions and by
strtol: returns (negative?, rest). -/
def takeSign : List Char → Bool × List Char
  | [] => (false, [])
  | c :: cs =>
    if c = '-' then (true, cs)
    else if c = '+' then (false, cs)
    else (false, c :: cs)

/-- An sscanf `%ld` conversion: skip whitespace, optional sign, then at
least one decimal digit.  (Overflow of the 64-bit target is not modelled;
no property exercises times outside the 64-bit range.) -/
def scanLong (s : List Char) : Option (Int × List Char) :=
  let s1 := skipSpaces s
  let (neg, s2) := takeSign s1
  let (v, n, s3) := takeDecDigits 0 s2
  if n = 0 then none
  else some (if neg then -(v : Int) else (v : Int), s3)

/-- An sscanf `%hhx` conversion: skip whitespace, optional sign, optional
0x/0X prefix, at least one hex digit; the value is stored into an
unsigned char, i.e. reduced modulo 256 (negated first when a sign was
consumed, per strtoul). -/
def scanHexByte (s : List Char) : Option (Nat × List Char) :=
  let s1 := skipSpaces s
  let (neg, s2) := takeSign s1
  let s3 :=
    match s2 with
    | '0' :: 'x' :: c :: cs => if (hexVal? c).isSome then c :: cs else s2
    | '0' :: 'X' :: c :: cs => if (hexVal? c).isSome then c :: cs else s2
    | _ => s2
  let (v, n, s4) := takeHexDigits 0 s3
  if n = 0 then none
  else some (if neg then (256 - v % 256) % 256 else v % 256, s4)

/-- An sscanf `%hd` conversion: skip whitespace, optional sign, at least
one decimal digit; the value is stored into a 16-bit signed integer,
wrapping modulo 2^16. -/
def toInt16 (n : Int) : Int :=
  (n + 2 ^ 15) % 2 ^ 16 - 2 ^ 15

def scanShort (s : List Char) : Option (Int × List Char) :=
  match scanLong s with
  | some (v, rest) => some (toInt16 v, rest)
  | none => none

/-- An sscanf scanset `%1[set]`: exactly one character drawn from `set`. -/
def scanOneOf (set : List Char) : List Char → Option (List Char)
  | [] => none
  | c :: cs => if c ∈ set then some cs else none

/-- An sscanf `%m[^)]` conversion: the longest (nonempty) prefix of
characters other than a closing parenthesis. -/
def scanNotParen (s : List Char) : Option (List Char × List Char) :=
  let pre := s.takeWhile (fun c => c ≠ ')')
  let rest := s.dropWhile (fun c => c ≠ ')')
  if pre = [] then none else some (pre, rest)

/-- glib g_strsplit on the single-character delimiter ",", unlimited
tokens: empty tokens are kept, and the empty string yields the empty
vector. -/
def splitCommasAux : List Char → List (List Char)
  | [] => [[]]
  | c :: cs =>
    if c = ',' then [] :: splitCommasAux cs
    else
      match splitCommasAux cs with
      | t :: ts => (c :: t) :: ts
      | [] => [[c]]

def g_strsplit (s : List Char) : List (List Char) :=
  if s = [] then [] else splitCommasAux s

/-- glibc strtol with base 10 and a NULL end pointer, as used on the
interrupt arguments: skip whitespace, optional sign, then the longest run
of decimal digits (possibly empty, in which case the result is 0 and no
error is raised — glibc does not set errno when no conversion is
performed).  The second component is whether errno was set (ERANGE): only
when the mathematical value falls outside the 64-bit long range, in which
case the result is clamped to LONG_MIN/LONG_MAX. -/
def strtol10 (s : List Char) : Int × Bool :=
  let s1 := skipSpaces s
  let (neg, s2) := takeSign s1
  let v := (takeDecDigits 0 s2).1
  let raw : Int := if neg then -(v : Int) else (v : Int)
  if raw < -(2 ^ 63) then (-(2 ^ 63), true)
  else if raw > 2 ^ 63 - 1 then (2 ^ 63 - 1, true)
  else (raw, false)

/- ### parse_normal_event (ps2emu-record.c) -/

/-- The sscanf call of parse_normal_event, format
`"[%ld] %hhx %*1[-<]%*1[->] i8042 (%m[^)])\n"`: the conversion count
reaches 3 exactly when everything through the `%m[^)]` scanset succeeds
(the later literal `)` and trailing whitespace directive cannot lower the
count).  Returns (time, data, type_str). -/
def sscanfNormal (s : List Char) : Option (Int × Nat × List Char) := do
  let s ← matchLit '[' s
  let (time, s) ← scanLong s
  let s ← matchLit ']' s
  let s := skipSpaces s
  let (data, s) ← scanHexByte s
  let s := skipSpaces s
  let s ← scanOneOf ['-', '<'] s
  let s ← scanOneOf ['-', '>'] s
  let s := skipSpaces s
  let s ← matchLits "i8042".data s
  let s := skipSpaces s
  let s ← matchLit '(' s
  let (type_str, _) ← scanNotParen s
  pure (time, data, type_str)

/-- Outcome of parse_normal_event: TRUE with the filled event, FALSE with
no GError set (a soft mismatch, parsed_count ≠ 3), or FALSE with a
PS2_ERROR_INPUT GError set (the goto error paths). -/
inductive NormalParse where
  | ok (e : PS2Event)
  | soft
  | err
  deriving DecidableEq, Repr

/-- parse_normal_event of ps2emu-record.c.  `pre` is the event struct
passed in by the caller; fields the function does not assign keep their
previous values (in particular `type` when the parenthesized kind matches
none of the five known keywords, and `port`/`irq` for the four
argument-less kinds).  For the `interrupt` kind, the comparison is against
the first comma-separated token; fewer than three tokens is an input
error, and the port and IRQ come from strtol with only errno checked.
The IRQ is stored into a 16-bit field. -/
def parse_normal_event (pre : PS2Event) (s : List Char) : NormalParse :=
  match sscanfNormal s with
  | none => .soft
  | some (time, data, type_str) =>
    let type_str_args := g_strsplit type_str
    if type_str_args.headD [] = "interrupt".data then
      if type_str_args.length < 3 then .err
      else
        let portRes := strtol10 (type_str_args.getD 1 [])
        if portRes.2 then .err
        else
          let irqRes := strtol10 (type_str_args.getD 2 [])
          if irqRes.2 then .err
          else
            .ok { type := .interrupt, time := time, data := data,
                  port := portRes.1, irq := toInt16 irqRes.1,
                  has_data := true }
    else if type_str = "command".data then
      .ok { pre with type := .command, time := time, data := data,
                     has_data := true }
    else if type_str = "parameter".data then
      .ok { pre with type := .parameter, time := time, data := data,
                     has_data := true }
    else if type_str = "return".data then
      .ok { pre with type := .ret, time := time, data := data,
                     has_data := true }
    else if type_str = "kbd-data".data then
      .ok { pre with type := .kbdData, time := time, data := data,
                     has_data := true }
    else
      .ok { pre with time := time, data := data, has_data := true }

/- ### parse_interrupt_without_data (ps2emu-record.c) -/

/-- The sscanf call of parse_interrupt_without_data, format
`"[%ld] Interrupt %hd, without any data\n"`: the conversion count reaches
2 as soon as the `%hd` succeeds, so the literal tail after the IRQ cannot
affect success. -/
def sscanfNoData (s : List Char) : Option (Int × Int) := do
  let s ← matchLit '[' s
  let (time, s) ← scanLong s
  let s ← matchLit ']' s
  let s := skipSpaces s
  let s ← matchLits "Interrupt".data s
  let s := skipSpaces s
  let (irq, _) ← scanShort s
  pure (time, irq)

/-- parse_interrupt_without_data of ps2emu-record.c: none is FALSE (no
GError path exists in this function).  `data` and `port` keep their
previous values. -/
def parse_interrupt_without_data (pre : PS2Event) (s : List Char) :
    Option PS2Event :=
  match sscanfNoData s with
  | none => none
  | some (time, irq) =>
    some { pre with type := .interrupt, time := time, irq := irq,
                    has_data := false }

/- ### process_event (ps2emu-record.c) -/

def KEYBOARD_PORT : Int := 0

/-- process_event of ps2emu-record.c, reduced to its observable effect:
`true` iff the event is serialized and printed, `false` iff one of the
early `return TRUE` suppression paths is taken.  The first guard is the
`!record_kbd` block (keyboard-port interrupts and kbd-data), the second
the `!record_aux` block (non-keyboard-port interrupts, and non-interrupt
events that are not kbd-data). -/
def process_event (record_kbd record_aux : Bool) (event : PS2Event) :
    Bool :=
  if ¬record_kbd ∧ (event.type = .interrupt ∧ event.port = KEYBOARD_PORT ∨
      event.type = .kbdData) then
    false
  else if ¬record_aux ∧ (if event.type = .interrupt
      then event.port ≠ KEYBOARD_PORT
      else event.type ≠ .kbdData) then
    false
  else
    true

/- ### Line classification (ps2emu-replay.c side) -/

/-- C strstr, returning the suffix that follows the first occurrence of
`pat` (the `*start_pos + strlen(...)` step of get_next_module_line). -/
def strstrAfter (pat : List Char) : List Char → Option (List Char)
  | [] => matchLits pat []
  | c :: cs =>
    match matchLits pat (c :: cs) with
    | some rest => some rest
    | none => strstrAfter pat cs

inductive LineType where
  | event
  | sectionLine
  | invalid
  deriving DecidableEq, Repr

/-- Modelled from the spec: get_line_type lives in ps2emu-line.c, which is
not among the given sources.  Per §4.2 the classifier is shared verbatim
with the recorder: the two fixed markers "i8042: " and "ps2emu: " are
searched for anywhere in the line, in that priority order, and the
payload is the substring after the first matching marker;
hardware-debug-source lines carry events and annotation-source lines
carry section markers (§6).  A line matching neither marker is
LINE_TYPE_INVALID (parse_events treats that case as a hard failure). -/
def get_line_type (line : List Char) : LineType × List Char :=
  match strstrAfter "i8042: ".data line with
  | some payload => (.event, payload)
  | none =>
    match strstrAfter "ps2emu: ".data line with
    | some payload => (.sectionLine, payload)
    | none => (.invalid, line)

inductive LogSectionType where
  | init
  | main
  | error
  deriving DecidableEq, Repr

/-- Strip trailing whitespace (the line terminator kept by
g_io_channel_read_line). -/
def stripTrailingWs (s : List Char) : List Char :=
  (skipSpaces s.reverse).reverse

/-- Modelled from the spec: section_type_from_line lives in
ps2emu-section.c, which is not among the given sources.  Per §4.4/§6 the
annotation payload carries one of the exact marker keywords "Init" or
"Main", and an unrecognized marker keyword is a hard failure
(SECTION_TYPE_ERROR). -/
def section_type_from_line (s : List Char) : LogSectionType :=
  if stripTrailingWs s = "Init".data then .init
  else if stripTrailingWs s = "Main".data then .main
  else .error

inductive EventParse where
  | ok (e : PS2Event)
  | skip
  | err
  deriving DecidableEq, Repr

/-- Modelled from the spec: ps2_event_from_line lives in ps2emu-event.c,
which is not among the given sources.  Per §4.3 the two event shapes are
tried as ordered alternatives on a freshly allocated (zeroed) event; a
structural error while attempting shape 1 propagates (NULL with the
GError set), and a line matching neither shape is a soft skip (NULL with
no GError).  The two shape parsers themselves are the ones of
ps2emu-record.c above. -/
def ps2_event_from_line (s : List Char) : EventParse :=
  match parse_normal_event zeroEvent s with
  | .ok e => .ok e
  | .err => .err
  | .soft =>
    match parse_interrupt_without_data zeroEvent s with
    | some e => .ok e
    | none => .skip

/- ### parse_events (ps2emu-replay.c) -/

/-- The possible targets of the `event_list_dest` pointer in
parse_events: the legacy single list, or the init/main lists. -/
inductive EventListDest where
  | legacy
  | initList
  | mainList
  deriving DecidableEq, Repr

/-- The three global event lists of ps2emu-replay.c. -/
structure ParseEventsState where
  event_list : List PS2Event
  init_event_list : List PS2Event
  main_event_list : List PS2Event
  deriving DecidableEq, Repr

/-- Outcome of parse_events.  `undefined` models the undefined behaviour of
storing through the local `event_list_dest` pointer while it is still
uninitialized: for a version-≥1 log, the pointer is only assigned when a
section line is seen, so an event line arriving first dereferences an
indeterminate pointer.  The embedding makes the selector an
`Option EventListDest` whose `none` state is that uninitialized local. -/
inductive ParseEventsResult where
  | ok (st : ParseEventsState)
  | fail
  | undefined
  deriving DecidableEq, Repr

/-- The line loop of parse_events.  For `log_version < 1` each line is
forced to LINE_TYPE_EVENT with the whole line as payload and the
destination is the legacy list; otherwise the line is classified and the
destination is whatever the most recent section line selected.  Events
are prepended (g_slist_prepend). -/
def parse_events_loop (log_version : Int) (dest : Option EventListDest)
    (st : ParseEventsState) : List (List Char) → ParseEventsResult
  | [] => .ok st
  | line :: rest =>
    let classified :=
      if log_version < 1 then (LineType.event, line) else get_line_type line
    match classified with
    | (.event, msg_start) =>
      match ps2_event_from_line msg_start with
      | .skip => parse_events_loop log_version dest st rest
      | .err => .fail
      | .ok event =>
        match (if log_version < 1 then some EventListDest.legacy
               else dest) with
        | none => .undefined
        | some .legacy =>
          parse_events_loop log_version dest
            { st with event_list := event :: st.event_list } rest
        | some .initList =>
          parse_events_loop log_version dest
            { st with init_event_list := event :: st.init_event_list } rest
        | some .mainList =>
          parse_events_loop log_version dest
            { st with main_event_list := event :: st.main_event_list } rest
    | (.sectionLine, msg_start) =>
      match section_type_from_line msg_start with
      | .init => parse_events_loop log_version (some .initList) st rest
      | .main => parse_events_loop log_version (some .mainList) st rest
      | .error => .fail
    | (.invalid, _) => .fail

/-- parse_events of ps2emu-replay.c over the lines that remain after the
version line was consumed: run the loop (all three lists start empty, the
destination selector starts uninitialized), then on end-of-input reverse
the accumulated lists — init/main for version ≥ 1, the single legacy
list otherwise (the non-NULL guards in the C are immaterial since
reversing an empty list is the identity). -/
def parse_events (log_version : Int) (lines : List (List Char)) :
    ParseEventsResult :=
  match parse_events_loop log_version none ⟨[], [], []⟩ lines with
  | .ok st =>
    if log_version ≥ 1 then
      .ok { st with init_event_list := st.init_event_list.reverse,
                    main_event_list := st.main_event_list.reverse }
    else
      .ok { st with event_list := st.event_list.reverse }
  | .fail => .fail
  | .undefined => .undefined

/- ### parse_log_version and the version gate of main (ps2emu-replay.c) -/

/-- Status of a single-conversion sscanf call, with the C standard's
three outcomes: the conversion assigned (return value 1), a matching
failure before it (return value 0), or an input failure — end of input
reached before the first conversion completes — where sscanf returns
EOF (-1). -/
inductive ScanfStatus where
  | assigned (v : Int)
  | matchFail
  | inputFail
  deriving DecidableEq, Repr

/-- One literal format character under sscanf's failure distinction:
running out of input is not the same as reading a differing
character. -/
inductive LitScan where
  | next (rest : List Char)
  | mismatch
  | ended
  deriving DecidableEq, Repr

def scanfLit (c : Char) : List Char → LitScan
  | [] => .ended
  | x :: xs => if x = c then .next xs else .mismatch

def scanfLits : List Char → List Char → LitScan
  | [], s => .next s
  | c :: cs, s =>
    match scanfLit c s with
    | .next s1 => scanfLits cs s1
    | .mismatch => .mismatch
    | .ended => .ended

/-- An sscanf `%d` conversion with the full status distinction: skip
whitespace; reaching end of input with only whitespace consumed is an
input failure; otherwise an optional sign followed by at least one
decimal digit assigns, and anything else (a non-digit first character,
or a sign with no digit after it) is a matching failure.  (Overflow of
the 32-bit target is not modelled; no property exercises such
versions.) -/
def scanInt (s : List Char) : ScanfStatus :=
  match skipSpaces s with
  | [] => .inputFail
  | s1 =>
    let (neg, s2) := takeSign s1
    let v := (takeDecDigits 0 s2).1
    let n := (takeDecDigits 0 s2).2.1
    if n = 0 then .matchFail
    else .assigned (if neg then -(v : Int) else (v : Int))

/-- The sscanf call of parse_log_version, format
`"# ps2emu-record V%d\n"`: the version is assigned exactly when the
literal prefix and at least one decimal digit after the V match; a
differing character is a matching failure (sscanf returns 0), while
running out of input first — e.g. a line ending right after the
literals — is an input failure (sscanf returns EOF, which the caller's
`parse_count == 0` test does not catch). -/
def sscanfVersion (s : List Char) : ScanfStatus :=
  match scanfLit '#' s with
  | .mismatch => .matchFail
  | .ended => .inputFail
  | .next s1 =>
    match scanfLits "ps2emu-record".data (skipSpaces s1) with
    | .mismatch => .matchFail
    | .ended => .inputFail
    | .next s2 =>
      match scanfLit 'V' (skipSpaces s2) with
      | .mismatch => .matchFail
      | .ended => .inputFail
      | .next s3 => scanInt s3

/-- What parse_log_version of ps2emu-replay.c leaves behind: the
returned int together with the GError state.  Reading at end-of-file
sets a NO_EVENTS GError ("Reached unexpected EOF") and returns -1; a
line failing the header match (sscanf count 0) sets an INPUT GError
("Invalid log file version") and returns -1; an sscanf input failure
(EOF return value) slips past the `parse_count == 0` test, so the
function returns its *uninitialized* local log_version with no GError
set — an indeterminate value. -/
inductive LogVersionResult where
  | ok (v : Int)
  | invalidHeader
  | eofNoEvents
  | undefinedValue
  deriving DecidableEq, Repr

def parse_log_version (line : Option (List Char)) : LogVersionResult :=
  match line with
  | none => .eofNoEvents
  | some l =>
    match sscanfVersion l with
    | .assigned v => .ok v
    | .matchFail => .invalidHeader
    | .inputFail => .undefinedValue

/-- Modelled from the spec: PS2EMU_LOG_VERSION is defined in
ps2emu-misc.h, which is not among the given sources; per §8 the
implementation supports versions up to 1. -/
def PS2EMU_LOG_VERSION : Int := 1

/-- Outcome of the version-check-and-parse stage of main() in
ps2emu-replay.c (everything between opening the log and opening the
device endpoint).  `parseError` is the `goto error` exit (exit code 1
with the pending GError message), `undefBehavior` the store through the
uninitialized destination pointer inside parse_events, and
`undefinedVersion` main comparing and dispatching on the indeterminate
int that parse_log_version returns after an sscanf input failure. -/
inductive MainParseOutcome where
  | versionError (found : Int)
  | parseError
  | undefBehavior
  | undefinedVersion
  | parsed (st : ParseEventsState)
  deriving DecidableEq, Repr

/-- The version gate and event parse of main(): parse_log_version
consumes the first line; `log_version > PS2EMU_LOG_VERSION` fails with
the "Log version is too new" error before parse_events runs; otherwise
parse_events consumes the remaining lines.  main never inspects the
GError that parse_log_version may have set: when the header matched the
GError is clean and parse_events runs normally, but on the -1 error
returns the version gate passes (-1 is not newer than the supported
version) and the still-set GError makes the first
g_io_channel_read_line inside parse_events fail its `*error == NULL`
precondition (g_return_val_if_fail returns G_IO_STATUS_ERROR), so
parse_events returns FALSE at once — rc is neither NORMAL nor EOF —
and main exits printing the pending message; the stored lines are never
parsed on that path. -/
def main_parse_stage (lines : List (List Char)) : MainParseOutcome :=
  match parse_log_version lines.head? with
  | .ok v =>
    if v > PS2EMU_LOG_VERSION then .versionError v
    else
      match parse_events v lines.tail with
      | .ok st => .parsed st
      | .fail => .parseError
      | .undefined => .undefBehavior
  | .invalidHeader =>
    if (-1 : Int) > PS2EMU_LOG_VERSION then .versionError (-1)
    else .parseError
  | .eofNoEvents =>
    if (-1 : Int) > PS2EMU_LOG_VERSION then .versionError (-1)
    else .parseError
  | .undefinedValue => .undefinedVersion

/- ### Reference (spec-side) parse functions for the refinement claims -/

/-- Reference semantics written after the spec's words for the legacy
format (§4.4): every line parses as an event per §4.3 and every parsed
event is appended — in input order — to the single unnamed sequence;
soft-unrecognized lines are skipped, structural errors are fatal. -/
def legacy_parse_spec : List (List Char) → Option (List PS2Event)
  | [] => some []
  | line :: rest =>
    match ps2_event_from_line line with
    | .ok e => (legacy_parse_spec rest).map (fun es => e :: es)
    | .skip => legacy_parse_spec rest
    | .err => none

/-- Reference semantics written after the spec's words for the versioned
format (§4.4): classify each line; annotation lines switch the current
destination sequence; event lines append — in input order — to the
currently selected sequence.  Returns the (init, main) sequences, or
none on a hard failure or on an event arriving while no destination has
been selected. -/
def sectioned_route_spec (dest : Option EventListDest) :
    List (List Char) → Option (List PS2Event × List PS2Event)
  | [] => some ([], [])
  | line :: rest =>
    match get_line_type line with
    | (.event, msg_start) =>
      match ps2_event_from_line msg_start with
      | .skip => sectioned_route_spec dest rest
      | .err => none
      | .ok e =>
        match dest with
        | some .initList =>
          (sectioned_route_spec dest rest).map (fun p => (e :: p.1, p.2))
        | some .mainList =>
          (sectioned_route_spec dest rest).map (fun p => (p.1, e :: p.2))
        | _ => none
    | (.sectionLine, msg_start) =>
      match section_type_from_line msg_start with
      | .init => sectioned_route_spec (some .initList) rest
      | .main => sectioned_route_spec (some .mainList) rest
      | .error => none
    | (.invalid, _) => none

/-- Does an event line (one that parses as an event) occur before any
section line?  Classification as in parse_events for version ≥ 1. -/
def event_before_marker : List (List Char) → Bool
  | [] => false
  | line :: rest =>
    match get_line_type line with
    | (.event, msg_start) =>
      match ps2_event_from_line msg_start with
      | .ok _ => true
      | .skip => event_before_marker rest
      | .err => false
    | (.sectionLine, _) => false
    | (.invalid, _) => false

/- ### Replay scheduler (ps2emu-replay.c) -/

/-- The command types sent to /dev/ps2emu.  Their numeric u8 values are an
external contract fixed in the kernel header ps2emu.h (not among the
given sources); only their identity matters here.  Modelled from the
spec §6. -/
inductive Ps2emuCmdType where
  | setPortType
  | cmdBegin
  | sendInterrupt
  deriving DecidableEq, Repr

/-- The 2-byte struct ps2emu_cmd frame written by send_ps2emu_cmd. -/
structure Ps2emuCmd where
  type : Ps2emuCmdType
  data : Nat
  deriving DecidableEq, Repr

/-- Observable steps of a replay, in order: a g_usleep request of a given
duration, a frame write stamped with the monotonic time at which it is
issued, and the two printf reports of simulate_receive. -/
inductive ReplayTraceEntry where
  | sleep (usec : Int)
  | write (at_time : Int) (cmd : Ps2emuCmd)
  | readMatch (b : Nat)
  | readMismatch (expected got : Nat)
  deriving DecidableEq, Repr

/-- Per-event environment nondeterminism of a replay: how far the
monotonic clock advanced before this event's g_get_monotonic_time call,
how much longer than requested g_usleep actually slept, whether the
frame write succeeded, and the outcome of the 1-byte read (none = read
failure). -/
structure ReplayStepEnv where
  delay : Nat
  overshoot : Nat
  write_ok : Bool
  read_result : Option Nat
  deriving DecidableEq, Repr

/-- simulate_interrupt of ps2emu-replay.c: `now` is the value returned by
its g_get_monotonic_time call.  current_time = now - start_time; when it
is behind the event's recorded time, g_usleep is asked for exactly
`event.time - current_time` microseconds (and may overshoot by
`overshoot ≥ 0`, uncorrected); then the SEND_INTERRUPT frame carrying
event->data is written.  Returns the clock after the call, the trace,
and the gboolean result (FALSE iff the write failed). -/
def simulate_interrupt (start_time now : Int) (overshoot : Nat)
    (event : PS2Event) (write_ok : Bool) :
    Int × List ReplayTraceEntry × Bool :=
  let current_time := now - start_time
  if current_time < event.time then
    let requested := event.time - current_time
    let now1 := now + requested + overshoot
    (now1,
     [.sleep requested, .write now1 ⟨.sendInterrupt, event.data⟩],
     write_ok)
  else
    (now, [.write now ⟨.sendInterrupt, event.data⟩], write_ok)

/-- simulate_receive of ps2emu-replay.c: read one byte from the endpoint
(none = read failure, FALSE returned with the GError set); on a
successful read compare against event->data and print the matching or
the mismatching report — both carry the received byte, the mismatch
report also the expected one — and return TRUE either way. -/
def simulate_receive (event : PS2Event) (read_result : Option Nat) :
    List ReplayTraceEntry × Bool :=
  match read_result with
  | none => ([], false)
  | some data =>
    if event.data = data then ([.readMatch data], true)
    else ([.readMismatch event.data data], true)

/-- The event loop of replay_event_list: interrupts go through
simulate_interrupt, everything else through simulate_receive, and a
FALSE return from either aborts the whole list immediately.  `env i`
supplies the environment of the i-th remaining event; the third
component of the result is the monotonic clock afterwards. -/
def replay_event_list (start_time : Int) :
    List PS2Event → (Nat → ReplayStepEnv) → Int →
    List ReplayTraceEntry × Bool × Int
  | [], _, now => ([], true, now)
  | event :: rest, env, now =>
    let e0 := env 0
    let now0 := now + (e0.delay : Int)
    if event.type = .interrupt then
      let r := simulate_interrupt start_time now0 e0.overshoot event
        e0.write_ok
      if r.2.2 then
        let k := replay_event_list start_time rest (fun i => env (i + 1)) r.1
        (r.2.1 ++ k.1, k.2.1, k.2.2)
      else
        (r.2.1, false, r.1)
    else
      let r := simulate_receive event e0.read_result
      if r.2 then
        let k := replay_event_list start_time rest (fun i => env (i + 1)) now0
        (r.1 ++ k.1, k.2.1, k.2.2)
      else
        (r.1, false, now0)

/- ### Theorems -/

/-- Claim C1, counterexample: the payload
`"[1000] 5f >i i8042 (interrupt,0,1)\n"` does NOT parse successfully —
its direction token ">i" matches neither character class of the
`%*1[-<]%*1[->]` scanset pair, so sscanf stops at conversion count 2 and
parse_normal_event returns FALSE with no error (a soft mismatch), not
the claimed successful event. -/
theorem c1_counterexample :
    parse_normal_event zeroEvent
      "[1000] 5f >i i8042 (interrupt,0,1)\n".data = .soft := by
  rfl

/-- Claim C1 (corrected): with a direction token that matches the scanset
pair — e.g. "->" — the data-bearing parser succeeds on the payload and
yields exactly an Interrupt event with time 1000, data 0x5f, port 0,
irq 1 and has_data true, for any prior contents of the event struct. -/
theorem c1_amended_parse_interrupt_line (pre : PS2Event) :
    parse_normal_event pre "[1000] 5f -> i8042 (interrupt,0,1)\n".data =
      .ok { type := .interrupt, time := 1000, data := 0x5f, port := 0,
            irq := 1, has_data := true } := by
  rfl

/-- Claim C4, counterexample: a non-numeric interrupt argument does NOT
raise an InputError.  The port is read with strtol and only errno is
checked; glibc's strtol leaves errno untouched when no conversion is
performed and simply returns 0, so `(interrupt,x,1)` parses successfully
with port 0. -/
theorem c4_counterexample :
    parse_normal_event zeroEvent
      "[1000] 5f -> i8042 (interrupt,x,1)\n".data =
      .ok { type := .interrupt, time := 1000, data := 0x5f, port := 0,
            irq := 1, has_data := true } := by
  rfl

/-- Claim C4 (corrected): when the data-bearing payload's kind is
"interrupt", an InputError is raised whenever fewer than two
comma-separated arguments follow the kind; a non-numeric port or irq
argument is NOT an error — strtol flags only out-of-range values, and a
non-numeric argument converts to 0 — so on success port and irq are the
strtol values of the two arguments. -/
theorem c4_amended_interrupt_args :
    (∀ (pre : PS2Event) (s : List Char) (r : Int × Nat × List Char),
       sscanfNormal s = some r →
       (g_strsplit r.2.2).headD [] = "interrupt".data →
       (g_strsplit r.2.2).length < 3 →
       parse_normal_event pre s = .err) ∧
    (∀ pre : PS2Event,
       parse_normal_event pre
         "[1000] 5f -> i8042 (interrupt,x,1)\n".data =
         .ok { type := .interrupt, time := 1000, data := 0x5f, port := 0,
               irq := 1, has_data := true }) := by
  constructor
  · intro pre s r hscan hkind hlen
    obtain ⟨t, d, ts⟩ := r
    simp only [parse_normal_event, hscan]
    simp only at hkind hlen
    rw [if_pos hkind, if_pos hlen]
  · intro pre
    rfl

/-- Claim C4, witness: the one-argument interrupt line of the spec's
example raises the input error. -/
theorem c4_witness :
    parse_normal_event zeroEvent
      "[1000] 5f -> i8042 (interrupt,0)\n".data = .err :=
  c4_amended_interrupt_args.1 zeroEvent _ (1000, 0x5f, "interrupt,0".data)
    (by decide) (by decide) (by decide)

/-- Claim C6: a log declaring a version strictly greater than
PS2EMU_LOG_VERSION makes main fail with the "Log version is too new"
error straight after parse_log_version; the outcome does not depend on
the remaining lines, so no event line is ever parsed. -/
theorem c6_version_gate (l : List Char) (rest : List (List Char)) (v : Int)
    (hv : sscanfVersion l = .assigned v) (hgt : v > PS2EMU_LOG_VERSION) :
    main_parse_stage (l :: rest) = .versionError v := by
  simp only [main_parse_stage, parse_log_version, List.head?_cons, hv]
  rw [if_pos hgt]

/-- Claim C6, witness: a V5 log against the V1 implementation. -/
theorem c6_witness :
    main_parse_stage
      ("# ps2emu-record V5\n".data ::
        ["i8042: [0] 34 -> i8042 (command)\n".data]) = .versionError 5 :=
  c6_version_gate _ _ 5 (by decide) (by decide)

/-- Claim C7: the record pipeline's inclusion policy.  With keyboard
recording disabled every kbd-data event and every keyboard-port
interrupt is suppressed (whatever the auxiliary setting); with auxiliary
recording disabled every non-keyboard-port interrupt and every
non-interrupt event other than kbd-data is suppressed (whatever the
keyboard setting); and with keyboard disabled but auxiliary enabled,
every non-keyboard-port interrupt is emitted. -/
theorem c7_inclusion_policy :
    (∀ (record_aux : Bool) (e : PS2Event),
       e.type = .kbdData ∨ e.type = .interrupt ∧ e.port = KEYBOARD_PORT →
       process_event false record_aux e = false) ∧
    (∀ (record_kbd : Bool) (e : PS2Event),
       (e.type = .interrupt ∧ e.port ≠ KEYBOARD_PORT) ∨
       (e.type ≠ .interrupt ∧ e.type ≠ .kbdData) →
       process_event record_kbd false e = false) ∧
    (∀ e : PS2Event, e.type = .interrupt → e.port ≠ KEYBOARD_PORT →
       process_event false true e = true) := by
  refine ⟨?_, ?_, ?_⟩
  · rintro aux e (h | ⟨h1, h2⟩)
    · simp [process_event, h]
    · simp [process_event, h1, h2]
  · rintro kbd e (⟨h1, h2⟩ | ⟨h1, h2⟩)
    · cases kbd <;> simp [process_event, h1, h2]
    · cases kbd <;> simp [process_event, h1, h2]
  · intro e h1 h2
    simp [process_event, h1, h2]

/-- Claim C7, witness: a kbd-data event is suppressed with the keyboard
disabled, a port-1 interrupt is suppressed with auxiliary disabled, and
the same port-1 interrupt is emitted with keyboard disabled and
auxiliary enabled. -/
theorem c7_witness :
    process_event false true
        { type := .kbdData, time := 0, data := 1, port := 0, irq := 0,
          has_data := true } = false ∧
    process_event true false
        { type := .interrupt, time := 0, data := 1, port := 1, irq := 12,
          has_data := true } = false ∧
    process_event false true
        { type := .interrupt, time := 0, data := 1, port := 1, irq := 12,
          has_data := true } = true :=
  ⟨c7_inclusion_policy.1 true _ (Or.inl rfl),
   c7_inclusion_policy.2.1 true _ (Or.inl ⟨rfl, by decide⟩),
   c7_inclusion_policy.2.2 _ rfl (by decide)⟩

/-- Claim C10: a payload that matches the data-bearing shape but whose
parenthesized kind is none of the five known keywords still parses
successfully, with has_data set and time/data filled in, while the type
field — and port/irq — silently keep whatever values the caller's event
struct already held. -/
theorem c10_unknown_kind (pre : PS2Event) (s : List Char)
    (time : Int) (data : Nat) (type_str : List Char)
    (hscan : sscanfNormal s = some (time, data, type_str))
    (h1 : (g_strsplit type_str).headD [] ≠ "interrupt".data)
    (h2 : type_str ≠ "command".data)
    (h3 : type_str ≠ "parameter".data)
    (h4 : type_str ≠ "return".data)
    (h5 : type_str ≠ "kbd-data".data) :
    parse_normal_event pre s =
      .ok { pre with time := time, data := data, has_data := true } := by
  simp only [parse_normal_event, hscan]
  rw [if_neg h1, if_neg h2, if_neg h3, if_neg h4, if_neg h5]

/-- Claim C10, witness: the unknown kind "bogus" parses successfully and
the pre-existing type (here Return) and port/irq survive. -/
theorem c10_witness :
    parse_normal_event
      { type := .ret, time := 9, data := 9, port := 9, irq := 9,
        has_data := false }
      "[1] 2a -> i8042 (bogus)\n".data =
      .ok { type := .ret, time := 1, data := 42, port := 9, irq := 9,
            has_data := true } :=
  c10_unknown_kind _ _ 1 42 "bogus".data (by decide) (by decide)
    (by decide) (by decide) (by decide) (by decide)

/-- For any version below 1 the parse_events loop implements exactly the
spec-side legacy semantics, with the accumulator prepended. -/
lemma parse_events_loop_legacy (v : Int) (hv : v < 1) :
    ∀ (lines : List (List Char)) (dest : Option EventListDest)
      (st : ParseEventsState),
      parse_events_loop v dest st lines =
        (match legacy_parse_spec lines with
         | some es =>
             .ok { st with event_list := es.reverse ++ st.event_list }
         | none => .fail) := by
  intro lines
  induction lines with
  | nil =>
    intro dest st
    simp [parse_events_loop, legacy_parse_spec]
  | cons line rest ih =>
    intro dest st
    simp only [parse_events_loop, if_pos hv, legacy_parse_spec]
    cases hp : ps2_event_from_line line with
    | ok e =>
      simp only [ih]
      cases hl : legacy_parse_spec rest with
      | none => simp
      | some es => simp [List.append_assoc]
    | skip => simp only [ih]
    | err => simp

/-- parse_events for any version below 1 equals the spec-side legacy
semantics: every event, in input order, in the single unnamed list. -/
lemma parse_events_legacy (v : Int) (hv : v < 1)
    (lines : List (List Char)) :
    parse_events v lines =
      (match legacy_parse_spec lines with
       | some es => .ok ⟨es, [], []⟩
       | none => .fail) := by
  have hge : ¬ v ≥ 1 := by omega
  simp only [parse_events, parse_events_loop_legacy v hv]
  cases hl : legacy_parse_spec lines with
  | none => simp
  | some es => simp [if_neg hge]

/-- Claim C5, counterexample: a headerless log is NOT parsed under the
legacy grammar — the replayer aborts on it.  parse_log_version fails
the header match, sets the "Invalid log file version" GError and
returns -1; the version gate passes, but parse_events is then entered
with that GError still set, its first g_io_channel_read_line fails the
`*error == NULL` precondition, and main exits with the pending error.
The legacy grammar would have yielded the event. -/
theorem c5_counterexample :
    legacy_parse_spec ["[0] 34 -> i8042 (command)\n".data] =
      some [{ type := .command, time := 0, data := 0x34, port := 0,
              irq := 0, has_data := true }] ∧
    main_parse_stage ["[0] 34 -> i8042 (command)\n".data] =
      .parseError ∧
    main_parse_stage ["[0] 34 -> i8042 (command)\n".data] ≠
      .parsed { event_list := [{ type := .command, time := 0,
                                 data := 0x34, port := 0, irq := 0,
                                 has_data := true }],
                init_event_list := [], main_event_list := [] } := by
  refine ⟨by rfl, by rfl, by decide⟩

/-- Claim C5 (corrected): a log whose first line is absent or does not
carry the version header makes the replayer abort before any event
line is parsed: parse_log_version sets a GError (NoEventsError
"Reached unexpected EOF" at end-of-file, InputError "Invalid log file
version" on a non-matching line) and returns -1; main's
version-too-new check passes (-1 is not newer), but the pending GError
makes the first read inside parse_events fail, so the stage ends in
the fatal parse error and no line is parsed under any grammar.  The
legacy single-sequence grammar applies only when a version below 1 is
explicitly declared — e.g. a V0 header, after which the remaining
lines parse as the single unnamed sequence. -/
theorem c5_amended_headerless_abort :
    (∀ (l : List Char) (rest : List (List Char)),
       sscanfVersion l = .matchFail →
       parse_log_version (some l) = .invalidHeader ∧
       main_parse_stage (l :: rest) = .parseError) ∧
    main_parse_stage [] = .parseError ∧
    (∀ rest : List (List Char),
       main_parse_stage ("# ps2emu-record V0\n".data :: rest) =
         (match legacy_parse_spec rest with
          | some es =>
              .parsed { event_list := es, init_event_list := [],
                        main_event_list := [] }
          | none => .parseError)) := by
  refine ⟨?_, by rfl, ?_⟩
  · intro l rest hv
    have h1 : parse_log_version (some l) = .invalidHeader := by
      simp [parse_log_version, hv]
    refine ⟨h1, ?_⟩
    simp only [main_parse_stage, List.head?_cons, h1]
    rfl
  · intro rest
    have h0 : parse_log_version (some "# ps2emu-record V0\n".data) =
        .ok 0 := by decide
    simp only [main_parse_stage, List.head?_cons, List.tail_cons, h0]
    rw [if_neg (by decide : ¬ (0 : Int) > PS2EMU_LOG_VERSION)]
    rw [parse_events_legacy 0 (by decide)]
    cases hl : legacy_parse_spec rest with
    | none => simp
    | some es => simp

/-- Claim C5, witness: a two-line headerless log aborts, while the same
event lines behind an explicit V0 header parse as the legacy
sequence. -/
theorem c5_witness :
    main_parse_stage
        ["[0] 34 -> i8042 (command)\n".data,
         "[7] 2c -> i8042 (return)\n".data] = .parseError ∧
    main_parse_stage
        ("# ps2emu-record V0\n".data ::
          ["[7] 2c -> i8042 (return)\n".data]) =
      .parsed { event_list := [{ type := .ret, time := 7, data := 0x2c,
                                 port := 0, irq := 0, has_data := true }],
                init_event_list := [], main_event_list := [] } :=
  ⟨(c5_amended_headerless_abort.1 _ _ (by decide)).2,
   c5_amended_headerless_abort.2.2 _⟩

/-- For version ≥ 1, while the destination selector is still
uninitialized, a line that parses as an event drives the loop into the
undefined step. -/
lemma parse_events_loop_undefined_dest (v : Int) (hv : 1 ≤ v) :
    ∀ (lines : List (List Char)) (st : ParseEventsState),
      event_before_marker lines = true →
      parse_events_loop v none st lines = .undefined := by
  intro lines
  induction lines with
  | nil =>
    intro st h
    simp [event_before_marker] at h
  | cons line rest ih =>
    intro st h
    have hv' : ¬ v < 1 := by omega
    rcases hg : get_line_type line with ⟨lt, msg⟩
    simp only [event_before_marker, hg] at h
    simp only [parse_events_loop, if_neg hv', hg]
    cases lt with
    | event =>
      cases hp : ps2_event_from_line msg with
      | ok e => simp [hp, if_neg hv']
      | skip =>
        simp only [hp] at h
        simp only [hp]
        exact ih st h
      | err => simp [hp] at h
    | sectionLine => simp at h
    | invalid => simp at h

/-- Claim C9: in a version-≥1 log an event line that precedes the first
section marker is appended through the destination selector while it is
still uninitialized (no Init/Main line has assigned the local
`event_list_dest` pointer), so the parse step is the undefined outcome
rather than a structural-error (`fail`) outcome. -/
theorem c9_uninitialized_dest (v : Int) (lines : List (List Char))
    (hv : 1 ≤ v) (h : event_before_marker lines = true) :
    parse_events v lines = .undefined := by
  simp [parse_events, parse_events_loop_undefined_dest v hv lines _ h]

/-- Claim C9, witness: a single event line with no preceding marker. -/
theorem c9_witness :
    parse_events 1 ["i8042: [0] 34 -> i8042 (command)\n".data] =
      .undefined :=
  c9_uninitialized_dest 1 _ (by decide) (by decide)

/-- For version ≥ 1, a successful run of the parse_events loop from a
non-legacy destination computes exactly the spec-side section routing,
with the two accumulators prepended. -/
lemma parse_events_loop_sectioned (v : Int) (hv : 1 ≤ v) :
    ∀ (lines : List (List Char)) (dest : Option EventListDest)
      (st st' : ParseEventsState),
      dest ≠ some .legacy →
      parse_events_loop v dest st lines = .ok st' →
      ∃ p : List PS2Event × List PS2Event,
        sectioned_route_spec dest lines = some p ∧
        st'.init_event_list = p.1.reverse ++ st.init_event_list ∧
        st'.main_event_list = p.2.reverse ++ st.main_event_list ∧
        st'.event_list = st.event_list := by
  intro lines
  induction lines with
  | nil =>
    intro dest st st' _ hok
    simp only [parse_events_loop, ParseEventsResult.ok.injEq] at hok
    subst hok
    exact ⟨([], []), by simp [sectioned_route_spec]⟩
  | cons line rest ih =>
    intro dest st st' hnl hok
    have hv' : ¬ v < 1 := by omega
    rcases hg : get_line_type line with ⟨lt, msg⟩
    simp only [parse_events_loop, if_neg hv', hg] at hok
    simp only [sectioned_route_spec, hg]
    cases lt with
    | event =>
      cases hp : ps2_event_from_line msg with
      | ok e =>
        simp only [hp, if_neg hv'] at hok
        simp only [hp]
        cases dest with
        | none => simp at hok
        | some d =>
          cases d with
          | legacy => exact absurd rfl hnl
          | initList =>
            simp only [] at hok
            obtain ⟨p, hroute, hi, hm, hev⟩ :=
              ih (some .initList)
                { st with init_event_list := e :: st.init_event_list }
                st' hnl hok
            refine ⟨(e :: p.1, p.2), ?_, ?_, ?_, ?_⟩
            · simp [hroute]
            · simpa [List.append_assoc] using hi
            · simpa using hm
            · simpa using hev
          | mainList =>
            simp only [] at hok
            obtain ⟨p, hroute, hi, hm, hev⟩ :=
              ih (some .mainList)
                { st with main_event_list := e :: st.main_event_list }
                st' hnl hok
            refine ⟨(p.1, e :: p.2), ?_, ?_, ?_, ?_⟩
            · simp [hroute]
            · simpa using hi
            · simpa [List.append_assoc] using hm
            · simpa using hev
      | skip =>
        simp only [hp] at hok
        obtain ⟨p, hroute, hi, hm, hev⟩ := ih dest st st' hnl hok
        exact ⟨p, by simp [hp, hroute], hi, hm, hev⟩
      | err => simp [hp] at hok
    | sectionLine =>
      cases hs : section_type_from_line msg with
      | init =>
        simp only [hs] at hok
        obtain ⟨p, hroute, hi, hm, hev⟩ :=
          ih (some .initList) st st' (by decide) hok
        exact ⟨p, by simp [hs, hroute], hi, hm, hev⟩
      | main =>
        simp only [hs] at hok
        obtain ⟨p, hroute, hi, hm, hev⟩ :=
          ih (some .mainList) st st' (by decide) hok
        exact ⟨p, by simp [hs, hroute], hi, hm, hev⟩
      | error => simp [hs] at hok
    | invalid => simp at hok

/-- Claim C2: for every version-≥1 log body that parse_events accepts, the
init and main lists equal exactly the spec-side routing — each event in
the destination sequence selected by the most recent Init/Main marker,
in original input order (the prepend accumulation being undone by the
final reversal) — and the legacy list stays empty; in particular the
log with an Init marker, two events, a Main marker and one event yields
an init sequence of length 2 and a main sequence of length 1, both in
input order. -/
theorem c2_section_routing :
    (∀ (v : Int) (lines : List (List Char)) (st : ParseEventsState),
       1 ≤ v → parse_events v lines = .ok st →
       sectioned_route_spec none lines =
         some (st.init_event_list, st.main_event_list) ∧
       st.event_list = []) ∧
    parse_events 1
        ["ps2emu: Init\n".data,
         "i8042: [0] 34 -> i8042 (command)\n".data,
         "i8042: [100] fa <- i8042 (interrupt,1,12)\n".data,
         "ps2emu: Main\n".data,
         "i8042: [200] f4 -> i8042 (command)\n".data] =
      .ok { event_list := [],
            init_event_list :=
              [{ type := .command, time := 0, data := 0x34, port := 0,
                 irq := 0, has_data := true },
               { type := .interrupt, time := 100, data := 0xfa, port := 1,
                 irq := 12, has_data := true }],
            main_event_list :=
              [{ type := .command, time := 200, data := 0xf4, port := 0,
                 irq := 0, has_data := true }] } := by
  constructor
  · intro v lines st hv hpe
    have hge : v ≥ 1 := hv
    cases h0 : parse_events_loop v none ⟨[], [], []⟩ lines with
    | ok st0 =>
      simp only [parse_events, h0] at hpe
      rw [if_pos hge] at hpe
      simp only [ParseEventsResult.ok.injEq] at hpe
      obtain ⟨p, hroute, hi, hm, hev⟩ :=
        parse_events_loop_sectioned v hv lines none ⟨[], [], []⟩ st0
          (by simp) h0
      subst hpe
      refine ⟨?_, by simpa using hev⟩
      rw [hroute]
      simp only [Option.some.injEq]
      have hi' : st0.init_event_list = p.1.reverse := by simpa using hi
      have hm' : st0.main_event_list = p.2.reverse := by simpa using hm
      simp [hi', hm']
    | fail => simp [parse_events, h0] at hpe
    | undefined => simp [parse_events, h0] at hpe
  · rfl

/-- Claim C2, witness: the spec-side routing of the concrete log of the
claim, read off by applying the routing theorem to the parsed result. -/
theorem c2_witness :
    sectioned_route_spec none
        ["ps2emu: Init\n".data,
         "i8042: [0] 34 -> i8042 (command)\n".data,
         "i8042: [100] fa <- i8042 (interrupt,1,12)\n".data,
         "ps2emu: Main\n".data,
         "i8042: [200] f4 -> i8042 (command)\n".data] =
      some ([{ type := .command, time := 0, data := 0x34, port := 0,
               irq := 0, has_data := true },
             { type := .interrupt, time := 100, data := 0xfa, port := 1,
               irq := 12, has_data := true }],
            [{ type := .command, time := 200, data := 0xf4, port := 0,
               irq := 0, has_data := true }]) :=
  (c2_section_routing.1 1 _
      { event_list := [],
        init_event_list :=
          [{ type := .command, time := 0, data := 0x34, port := 0,
             irq := 0, has_data := true },
           { type := .interrupt, time := 100, data := 0xfa, port := 1,
             irq := 12, has_data := true }],
        main_event_list :=
          [{ type := .command, time := 200, data := 0xf4, port := 0,
             irq := 0, has_data := true }] }
      (by decide) (by rfl)).1

/-- simulate_receive never produces a frame write. -/
lemma simulate_receive_no_write (e : PS2Event) (rr : Option Nat)
    (t : Int) (c : Ps2emuCmd) :
    ReplayTraceEntry.write t c ∉ (simulate_receive e rr).1 := by
  cases rr with
  | none => simp [simulate_receive]
  | some b =>
    simp only [simulate_receive]
    split <;> simp

/-- Any write in a simulate_interrupt trace carries the SEND_INTERRUPT
frame with the event's data byte and is stamped no earlier than
start_time + event.time. -/
lemma simulate_interrupt_write_mem (start_time now : Int) (ov : Nat)
    (e : PS2Event) (w : Bool) (t : Int) (c : Ps2emuCmd)
    (_hle : start_time ≤ now)
    (hmem : ReplayTraceEntry.write t c ∈
      (simulate_interrupt start_time now ov e w).2.1) :
    c = ⟨.sendInterrupt, e.data⟩ ∧ start_time + e.time ≤ t := by
  simp only [simulate_interrupt] at hmem
  split at hmem
  · simp only [List.mem_cons, List.mem_singleton] at hmem
    rcases hmem with h | h | h
    · exact absurd h (by simp)
    · obtain ⟨ht, hc⟩ := ReplayTraceEntry.write.inj h
      refine ⟨hc, ?_⟩
      omega
    · simp at h
  · simp only [List.mem_singleton] at hmem
    obtain ⟨ht, hc⟩ := ReplayTraceEntry.write.inj hmem
    refine ⟨hc, ?_⟩
    omega

/-- The clock never moves backwards across simulate_interrupt. -/
lemma simulate_interrupt_now_le (start_time now : Int) (ov : Nat)
    (e : PS2Event) (w : Bool) :
    now ≤ (simulate_interrupt start_time now ov e w).1 := by
  simp only [simulate_interrupt]
  split <;> omega

/-- Every frame write in a replay trace belongs to some interrupt event
of the list, carries SEND_INTERRUPT with that event's data, and is
stamped no earlier than start_time + event.time. -/
lemma replay_writes_bound :
    ∀ (events : List PS2Event) (env : Nat → ReplayStepEnv)
      (start_time now : Int), start_time ≤ now →
      ∀ (t : Int) (c : Ps2emuCmd),
        ReplayTraceEntry.write t c ∈
          (replay_event_list start_time events env now).1 →
        ∃ e, e ∈ events ∧ e.type = PS2EventType.interrupt ∧
          c = ⟨.sendInterrupt, e.data⟩ ∧ start_time + e.time ≤ t := by
  intro events
  induction events with
  | nil =>
    intro env start_time now _ t c hmem
    simp [replay_event_list] at hmem
  | cons e rest ih =>
    intro env start_time now hle t c hmem
    simp only [replay_event_list] at hmem
    have hle0 : start_time ≤ now + ((env 0).delay : Int) := by omega
    by_cases he : e.type = PS2EventType.interrupt
    · rw [if_pos he] at hmem
      split at hmem
      · rcases List.mem_append.1 hmem with hm | hm
        · obtain ⟨hc, hb⟩ := simulate_interrupt_write_mem _ _ _ _ _ _ _
            hle0 hm
          exact ⟨e, by simp, he, hc, hb⟩
        · have hle1 : start_time ≤
              (simulate_interrupt start_time (now + ((env 0).delay : Int))
                (env 0).overshoot e (env 0).write_ok).1 :=
            le_trans hle0 (simulate_interrupt_now_le _ _ _ _ _)
          obtain ⟨e', hm', ht', hc', hb'⟩ :=
            ih (fun i => env (i + 1)) start_time _ hle1 t c hm
          exact ⟨e', by simp [hm'], ht', hc', hb'⟩
      · obtain ⟨hc, hb⟩ := simulate_interrupt_write_mem _ _ _ _ _ _ _
          hle0 hmem
        exact ⟨e, by simp, he, hc, hb⟩
    · rw [if_neg he] at hmem
      split at hmem
      · rcases List.mem_append.1 hmem with hm | hm
        · exact absurd hm (simulate_receive_no_write _ _ _ _)
        · obtain ⟨e', hm', ht', hc', hb'⟩ :=
            ih (fun i => env (i + 1)) start_time _ hle0 t c hm
          exact ⟨e', by simp [hm'], ht', hc', hb'⟩
      · exact absurd hmem (simulate_receive_no_write _ _ _ _)

/-- Claim C3: interrupt pacing.  (1) When the elapsed time since the
sequence start is behind the event's recorded time, simulate_interrupt
asks g_usleep for exactly event.time - elapsed microseconds — with no
correction for the sleep overshoot — and issues the SEND_INTERRUPT
frame at start + event.time + overshoot.  (2) In any replay, every
outbound frame is a SEND_INTERRUPT carrying the data byte of some
interrupt event of the sequence and is never stamped earlier than
start + event.time.  (3) Replaying two interrupts recorded at 0 and
50000 µs produces the two frames in order, 50000 µs apart. -/
theorem c3_interrupt_pacing :
    (∀ (start_time now : Int) (ov : Nat) (e : PS2Event) (w : Bool),
       now - start_time < e.time →
       simulate_interrupt start_time now ov e w =
         (start_time + e.time + ov,
          [.sleep (e.time - (now - start_time)),
           .write (start_time + e.time + ov) ⟨.sendInterrupt, e.data⟩],
          w)) ∧
    (∀ (events : List PS2Event) (env : Nat → ReplayStepEnv)
       (start_time now : Int), start_time ≤ now →
       ∀ (t : Int) (c : Ps2emuCmd),
         ReplayTraceEntry.write t c ∈
           (replay_event_list start_time events env now).1 →
         ∃ e, e ∈ events ∧ e.type = PS2EventType.interrupt ∧
           c = ⟨.sendInterrupt, e.data⟩ ∧ start_time + e.time ≤ t) ∧
    replay_event_list 0
        [{ type := .interrupt, time := 0, data := 0x5f, port := 0,
           irq := 1, has_data := true },
         { type := .interrupt, time := 50000, data := 0x5f, port := 0,
           irq := 1, has_data := true }]
        (fun _ => { delay := 0, overshoot := 0, write_ok := true,
                    read_result := none })
        0 =
      ([.write 0 ⟨.sendInterrupt, 0x5f⟩, .sleep 50000,
        .write 50000 ⟨.sendInterrupt, 0x5f⟩], true, 50000) := by
  refine ⟨?_, replay_writes_bound, by rfl⟩
  intro start_time now ov e w h
  simp only [simulate_interrupt]
  rw [if_pos h]
  have harith : now + (e.time - (now - start_time)) + (ov : Int) =
      start_time + e.time + (ov : Int) := by ring
  rw [harith]

/-- Claim C3, witness: the pacing equation at elapsed 0 against recorded
time 50000, and the frame bound read off the two-interrupt replay. -/
theorem c3_witness :
    simulate_interrupt 0 0 0
        { type := .interrupt, time := 50000, data := 0x5f, port := 0,
          irq := 1, has_data := true } true =
      (50000, [.sleep 50000, .write 50000 ⟨.sendInterrupt, 0x5f⟩],
       true) ∧
    (∃ e, e ∈ [({ type := .interrupt, time := 50000, data := 0x5f,
                  port := 0, irq := 1,
                  has_data := true } : PS2Event)] ∧
       e.type = PS2EventType.interrupt ∧
       (⟨.sendInterrupt, 0x5f⟩ : Ps2emuCmd) = ⟨.sendInterrupt, e.data⟩ ∧
       (0 : Int) + e.time ≤ 50000) :=
  ⟨c3_interrupt_pacing.1 0 0 0 _ true (by decide),
   c3_interrupt_pacing.2.1
     [({ type := .interrupt, time := 50000, data := 0x5f, port := 0,
         irq := 1, has_data := true } : PS2Event)]
     (fun _ => { delay := 0, overshoot := 0, write_ok := true,
                 read_result := none })
     0 0 (by decide) 50000 ⟨.sendInterrupt, 0x5f⟩ (by decide)⟩

/-- A successful 1-byte read always lets simulate_receive succeed,
whatever the comparison outcome. -/
lemma simulate_receive_some_true (e : PS2Event) (b : Nat) :
    (simulate_receive e (some b)).2 = true := by
  simp only [simulate_receive]
  split <;> rfl

/-- simulate_interrupt returns the write result as its gboolean. -/
lemma simulate_interrupt_flag (start_time now : Int) (ov : Nat)
    (e : PS2Event) (w : Bool) :
    (simulate_interrupt start_time now ov e w).2.2 = w := by
  simp only [simulate_interrupt]
  split <;> rfl

/-- Claim C8: receive-event failure semantics.  (1) A successfully read
byte that differs from the recorded event.data makes simulate_receive
report the mismatch with both values and still return success.  (2) In
the replay loop a successful read — mismatching or not — never aborts:
the replay of the remaining events continues after the receive report.
(3) A read failure on a receive event aborts the entire replay at that
point, independently of the remaining events.  (4) A write failure on an
interrupt event likewise aborts the entire replay at that point. -/
theorem c8_receive_semantics :
    (∀ (e : PS2Event) (b : Nat), e.data ≠ b →
       simulate_receive e (some b) = ([.readMismatch e.data b], true)) ∧
    (∀ (start_time : Int) (e : PS2Event) (rest : List PS2Event)
       (env : Nat → ReplayStepEnv) (now : Int) (b : Nat),
       e.type ≠ .interrupt → (env 0).read_result = some b →
       replay_event_list start_time (e :: rest) env now =
         ((simulate_receive e (some b)).1 ++
            (replay_event_list start_time rest (fun i => env (i + 1))
              (now + ((env 0).delay : Int))).1,
          (replay_event_list start_time rest (fun i => env (i + 1))
            (now + ((env 0).delay : Int))).2)) ∧
    (∀ (start_time : Int) (e : PS2Event) (rest : List PS2Event)
       (env : Nat → ReplayStepEnv) (now : Int),
       e.type ≠ .interrupt → (env 0).read_result = none →
       replay_event_list start_time (e :: rest) env now =
         ([], false, now + ((env 0).delay : Int))) ∧
    (∀ (start_time : Int) (e : PS2Event) (rest : List PS2Event)
       (env : Nat → ReplayStepEnv) (now : Int),
       e.type = .interrupt → (env 0).write_ok = false →
       replay_event_list start_time (e :: rest) env now =
         ((simulate_interrupt start_time (now + ((env 0).delay : Int))
             (env 0).overshoot e false).2.1,
          false,
          (simulate_interrupt start_time (now + ((env 0).delay : Int))
             (env 0).overshoot e false).1)) := by
  refine ⟨?_, ?_, ?_, ?_⟩
  · intro e b hne
    simp [simulate_receive, hne]
  · intro start_time e rest env now b hne hread
    simp only [replay_event_list, if_neg hne, hread,
      simulate_receive_some_true]
    simp
  · intro start_time e rest env now hne hread
    simp only [replay_event_list, if_neg hne, hread]
    rfl
  · intro start_time e rest env now hint hwfail
    simp only [replay_event_list, if_pos hint, hwfail,
      simulate_interrupt_flag]
    simp

/-- Claim C8, witness: a mismatching read is reported and replay runs to
completion; a failed read and a failed write each abort immediately. -/
theorem c8_witness :
    simulate_receive
        { type := .ret, time := 0, data := 0xaa, port := 0, irq := 0,
          has_data := true } (some 0xbb) =
      ([.readMismatch 0xaa 0xbb], true) ∧
    replay_event_list 0
        [{ type := .ret, time := 0, data := 0xaa, port := 0, irq := 0,
           has_data := true }]
        (fun _ => { delay := 0, overshoot := 0, write_ok := true,
                    read_result := some 0xbb })
        0 =
      ([.readMismatch 0xaa 0xbb], true, 0) ∧
    replay_event_list 0
        [{ type := .ret, time := 0, data := 0xaa, port := 0, irq := 0,
           has_data := true },
         { type := .interrupt, time := 5, data := 1, port := 0, irq := 1,
           has_data := true }]
        (fun _ => { delay := 0, overshoot := 0, write_ok := true,
                    read_result := none })
        0 =
      ([], false, 0) ∧
    replay_event_list 0
        [{ type := .interrupt, time := 100, data := 7, port := 0,
           irq := 1, has_data := true },
         { type := .ret, time := 0, data := 0xaa, port := 0, irq := 0,
           has_data := true }]
        (fun _ => { delay := 0, overshoot := 0, write_ok := false,
                    read_result := some 0xaa })
        0 =
      ([.sleep 100, .write 100 ⟨.sendInterrupt, 7⟩], false, 100) :=
  ⟨c8_receive_semantics.1 _ 0xbb (by decide),
   c8_receive_semantics.2.1 0 _ [] _ 0 0xbb (by decide) rfl,
   c8_receive_semantics.2.2.1 0 _
     [{ type := .interrupt, time := 5, data := 1, port := 0, irq := 1,
        has_data := true }] _ 0 (by decide) rfl,
   c8_receive_semantics.2.2.2 0 _
     [{ type := .ret, time := 0, data := 0xaa, port := 0, irq := 0,
        has_data := true }] _ 0 rfl rfl⟩

end Ps2emu
